import Mathlib

/-! Verification of the chart-geometry and statistics engine of app.py
(Sci-Graph Maker Pro).  Numeric data values are modelled as rationals;
standard deviations, which involve a square root, live in the reals.
Python string primitives used by the manual-entry parser (replace, split,
strip) are transliterated at the character-list level so that they are
executable by the kernel. -/

/-- One condition as built by the data-processing pipeline of app.py:
the dict with keys name, g1, g2, sig appended to cond_data_list. -/
structure CondData where
  name : String
  g1 : List ℚ
  g2 : List ℚ
  sig : String
deriving DecidableEq

/-- One manual-entry row of the UI: a condition name, the two free-text
data blocks, and the significance label. -/
structure ManualInput where
  name : String
  input1 : String
  input2 : String
  sig : String
deriving DecidableEq

/-- Python str.replace for single characters, as in
input1.replace(",", newline) at app.py line 120. -/
def pyReplace (a b : Char) (cs : List Char) : List Char :=
  cs.map (fun c => if c = a then b else c)

/-- Python str.split(sep) semantics: split at every occurrence of the
separator, keeping empty pieces, as in .split at app.py line 120. -/
def pySplit (sep : Char) : List Char → List (List Char)
  | [] => [[]]
  | c :: cs =>
    if c = sep then [] :: pySplit sep cs
    else match pySplit sep cs with
      | [] => [[c]]
      | t :: ts => (c :: t) :: ts

/-- Python str.strip: drop leading and trailing whitespace, as in
x.strip() at app.py lines 120 and 123. -/
def pyStrip (cs : List Char) : List Char :=
  ((cs.dropWhile Char.isWhitespace).reverse.dropWhile Char.isWhitespace).reverse

/-- The token stream of one manual data block, from app.py line 120:
replace commas by newlines, split on newlines, strip each piece, and keep
only the non-blank pieces. -/
def tokensOf (s : String) : List String :=
  (((pySplit '\n' (pyReplace ',' '\n' s.data)).map pyStrip).filter
      (fun t => !t.isEmpty)).map String.mk

/-- One manual data block parsed as in app.py lines 118-124, parameterised
by the float conversion pf (the Python built-in float, an external
collaborator).  An empty input string is falsy, so the block stays empty
with no error; if any token fails to convert, the exception handler leaves
the value list empty and reports an error (the Bool component). -/
def parseBlock (pf : String → Option ℚ) (s : String) : List ℚ × Bool :=
  if s = "" then ([], false)
  else match (tokensOf s).mapM pf with
    | some vs => (vs, false)
    | none => ([], true)

/-- One manual-entry condition assembled from its two parsed blocks,
as in app.py lines 118-127. -/
def parseCond (pf : String → Option ℚ) (mi : ManualInput) : CondData :=
  { name := mi.name
    g1 := (parseBlock pf mi.input1).1
    g2 := (parseBlock pf mi.input2).1
    sig := mi.sig }

/-- The manual-entry loop of app.py lines 96-127: each row is parsed
independently and appended to cond_data_list only when at least one of its
two blocks is non-empty (the Python test if v1 or v2). -/
def processManual (pf : String → Option ℚ) (ins : List ManualInput) : List CondData :=
  (ins.map (parseCond pf)).filter (fun d => !d.g1.isEmpty || !d.g2.isEmpty)

/-- Distinct values of a column in first-occurrence order, as computed by
pandas Series.unique at app.py line 88. -/
def uniqueFirst : List String → List String
  | [] => []
  | x :: xs => x :: uniqueFirst (xs.filter (fun y => y ≠ x))
termination_by l => l.length
decreasing_by simp only [List.length_cons]; exact Nat.lt_succ_of_le (List.length_filter_le _ _)

/-- The Value entries of one CSV group with missing values dropped, in row
order, as in app.py line 89 (the dropna().tolist() chain).  A row is a
Group name paired with its Value cell, none meaning a missing value. -/
def groupVals (rows : List (String × Option ℚ)) (g : String) : List ℚ :=
  (rows.filter (fun r => r.1 = g)).filterMap Prod.snd

/-- The CSV import block of app.py lines 84-93: one condition per distinct
Group value, its g1 holding that group's non-missing values, g2 empty, and
an empty significance label. -/
def csvImport (rows : List (String × Option ℚ)) : List CondData :=
  (uniqueFirst (rows.map Prod.fst)).map
    (fun g => { name := g, g1 := groupVals rows g, g2 := [], sig := "" })

/-- Every value of every group of every condition, as collected into
all_vals at app.py lines 145-148. -/
def allVals (conds : List CondData) : List ℚ :=
  conds.flatMap (fun d => d.g1 ++ d.g2)

/-- Maximum of a list as Python max on a non-empty list; the empty case is
never reached by the code (it is guarded by the truthiness test on
all_vals at line 152 and by the h_g1 and h_g2 flags at line 210). -/
def listMax : List ℚ → ℚ
  | [] => 0
  | x :: xs => xs.foldl max x

/-- The shared y-axis upper limit of app.py line 152: the manual override
when it is strictly positive, else 1.35 times the global maximum, else the
constant 100 when no values exist at all. -/
def yMaxLimit (manual : ℚ) (conds : List CondData) : ℚ :=
  if 0 < manual then manual
  else if allVals conds = [] then 100
  else listMax (allVals conds) * 1.35

/-- Whether the informational empty-data prompt is shown: the else branch
of the truthiness test on cond_data_list at app.py lines 132 and 256-257. -/
def showsEmptyInfo (conds : List CondData) : Bool :=
  conds.isEmpty

/-- Whether the rendering branch runs: the then branch of the truthiness
test on cond_data_list at app.py line 132. -/
def rendersChart (conds : List CondData) : Bool :=
  !conds.isEmpty

/-- The x positions of the two groups of one condition, from app.py line
161: symmetric around 0 when both groups are non-empty, both 0 otherwise. -/
def positions (w gap : ℚ) (d : CondData) : ℚ × ℚ :=
  if d.g1 ≠ [] ∧ d.g2 ≠ [] then (-(w / 2 + gap / 2), w / 2 + gap / 2) else (0, 0)

/-- The per-condition maximum used by the significance bracket, from
app.py line 210: an absent group contributes 0. -/
def localMax (d : CondData) : ℚ :=
  max (if d.g1 ≠ [] then listMax d.g1 else 0) (if d.g2 ≠ [] then listMax d.g2 else 0)

/-- The significance bracket geometry of app.py lines 209-215. -/
structure SigBracket where
  lxs : ℚ
  lxe : ℚ
  yBar : ℚ
  height : ℚ
  label : String
deriving DecidableEq

/-- The geometry derived for one condition inside the rendering loop of
app.py lines 155-215: the two group positions (line 161), the shared
y-axis limit applied by set_ylim (line 206), and the optional significance
bracket (lines 209-215). -/
structure CondRender where
  pos1 : ℚ
  pos2 : ℚ
  yLim : ℚ
  bracket : Option SigBracket
deriving DecidableEq

/-- One iteration of the rendering loop for a given shared y limit. -/
def renderCond (w gap yl : ℚ) (d : CondData) : CondRender :=
  { pos1 := (positions w gap d).1
    pos2 := (positions w gap d).2
    yLim := yl
    bracket :=
      if d.sig ≠ "" then
        some
          { lxs := if d.g1 ≠ [] ∧ d.g2 ≠ [] then (positions w gap d).1
                   else (positions w gap d).1 - 0.2
            lxe := if d.g1 ≠ [] ∧ d.g2 ≠ [] then (positions w gap d).2
                   else (positions w gap d).1 + 0.2
            yBar := localMax d * 1.15
            height := localMax d * 0.03
            label := d.sig }
      else none }

/-- The whole rendering loop of app.py lines 144-215: the y limit is
computed once from the global data, then every condition is rendered with
that same limit. -/
def renderAll (w gap m : ℚ) (conds : List CondData) : List CondRender :=
  conds.map (renderCond w gap (yMaxLimit m conds))

/-- Arithmetic mean as computed by np.mean at app.py line 166. -/
def mean (l : List ℚ) : ℚ := l.sum / (l.length : ℚ)

/-- Sample variance with ddof 1, the square of np.std(vals, ddof=1) at
app.py line 167; only ever used on lists of length at least two. -/
def sampleVar (l : List ℚ) : ℚ :=
  (l.map (fun x => (x - mean l) ^ 2)).sum / ((l.length : ℚ) - 1)

/-- The std_v of app.py line 167: sample standard deviation when the list
has more than one element, else 0. -/
noncomputable def sampleStd (l : List ℚ) : ℝ :=
  if 1 < l.length then Real.sqrt ((sampleVar l : ℚ) : ℝ) else 0

/-- The globally selected graph type of app.py line 36. -/
inductive PlotKind
  | Bar
  | Box
  | Violin
deriving DecidableEq

/-- The error-bar choice of app.py line 38, meaningful only for bars. -/
inductive ErrorBarKind
  | SD
  | SEM
deriving DecidableEq

/-- The err_v of app.py lines 170-173: the standard deviation is divided
by the square root of the sample size exactly when the plot is a bar plot
and the SEM option is selected. -/
noncomputable def errBar (pk : PlotKind) (eb : ErrorBarKind) (l : List ℚ) : ℝ :=
  if pk = PlotKind.Bar ∧ eb = ErrorBarKind.SEM then
    sampleStd l / Real.sqrt ((l.length : ℕ) : ℝ)
  else sampleStd l

/-- Replace the significance label of a condition; used to state that the
y limit never depends on the labels. -/
def withSig (f : String → String) (d : CondData) : CondData :=
  { d with sig := f d.sig }

theorem allVals_cons (d : CondData) (cs : List CondData) :
    allVals (d :: cs) = (d.g1 ++ d.g2) ++ allVals cs := by
  simp [allVals]

theorem allVals_map_withSig (f : String → String) (conds : List CondData) :
    allVals (conds.map (withSig f)) = allVals conds := by
  induction conds with
  | nil => rfl
  | cons c cs ih => simp only [List.map_cons, allVals_cons, withSig, ih]

theorem mem_uniqueFirst {g : String} : ∀ (l : List String), g ∈ uniqueFirst l ↔ g ∈ l := by
  intro l
  induction l using uniqueFirst.induct with
  | case1 => simp [uniqueFirst]
  | case2 x xs ih =>
    rw [uniqueFirst, List.mem_cons, List.mem_cons, ih, List.mem_filter]
    by_cases hgx : g = x
    · simp [hgx]
    · simp [hgx]

theorem uniqueFirst_filter_eq (g : String) : ∀ (l : List String),
    (uniqueFirst l).filter (fun y => y = g) = if g ∈ l then [g] else [] := by
  intro l
  induction l using uniqueFirst.induct with
  | case1 => simp [uniqueFirst]
  | case2 x xs ih =>
    rw [uniqueFirst, List.filter_cons]
    by_cases hxg : x = g
    · have htail : (uniqueFirst (xs.filter (fun y => y ≠ x))).filter (fun y => y = g) = [] := by
        rw [List.filter_eq_nil_iff]
        intro a ha
        have hmem : a ∈ xs.filter (fun y => y ≠ x) := (mem_uniqueFirst _).mp ha
        have hax : a ≠ x := by simpa using (List.mem_filter.mp hmem).2
        simpa using hxg ▸ hax
      rw [if_pos (by simpa using hxg), htail, if_pos (by simp [hxg])]
      rw [hxg]
    · have hgx : g ≠ x := fun h => hxg h.symm
      rw [if_neg (by simpa using hxg), ih]
      exact if_congr (by simp [List.mem_filter, List.mem_cons, hgx]) rfl rfl

/-- C1: for every condition, when both groups are non-empty group1 sits at
minus (width over 2 plus gap over 2) and group2 at the opposite point, so
the positions sum to 0 and differ by width plus gap; when at most one group
is non-empty both slots are 0; and the positions rendered at index i of the
loop depend only on the condition at index i, not on its siblings. -/
theorem c1_position_assignment (w gap yl m : ℚ) (d : CondData)
    (conds conds' : List CondData) (i : ℕ) (hagree : conds[i]? = conds'[i]?) :
    (d.g1 ≠ [] → d.g2 ≠ [] →
      (renderCond w gap yl d).pos1 = -(w / 2 + gap / 2) ∧
      (renderCond w gap yl d).pos2 = w / 2 + gap / 2 ∧
      (renderCond w gap yl d).pos1 + (renderCond w gap yl d).pos2 = 0 ∧
      (renderCond w gap yl d).pos2 - (renderCond w gap yl d).pos1 = w + gap) ∧
    (¬(d.g1 ≠ [] ∧ d.g2 ≠ []) →
      (renderCond w gap yl d).pos1 = 0 ∧ (renderCond w gap yl d).pos2 = 0) ∧
    (renderAll w gap m conds)[i]?.map (fun r => (r.pos1, r.pos2)) =
      (renderAll w gap m conds')[i]?.map (fun r => (r.pos1, r.pos2)) := by
  refine ⟨?_, ?_, ?_⟩
  · intro h1 h2
    have hp : positions w gap d = (-(w / 2 + gap / 2), w / 2 + gap / 2) := by
      rw [positions, if_pos ⟨h1, h2⟩]
    refine ⟨?_, ?_, ?_, ?_⟩ <;> simp [renderCond, hp] <;> ring
  · intro h
    have hp : positions w gap d = (0, 0) := by rw [positions, if_neg h]
    exact ⟨by simp [renderCond, hp], by simp [renderCond, hp]⟩
  · rw [renderAll, renderAll, List.getElem?_map, List.getElem?_map, hagree]
    cases conds'[i]? with
    | none => rfl
    | some d0 => rfl

/-- C1 witness: a two-group condition at width 0.6 and gap 0.05 is placed
symmetrically. -/
theorem c1_position_assignment_witness :
    (renderCond 0.6 0.05 100 { name := "A", g1 := [1], g2 := [2], sig := "" }).pos1 =
        -(0.6 / 2 + 0.05 / 2) ∧
    (renderCond 0.6 0.05 100 { name := "A", g1 := [1], g2 := [2], sig := "" }).pos2 =
        0.6 / 2 + 0.05 / 2 := by
  have h := c1_position_assignment 0.6 0.05 100 0
      { name := "A", g1 := [1], g2 := [2], sig := "" } [] [] 0 rfl
  exact ⟨(h.1 (by decide) (by decide)).1, (h.1 (by decide) (by decide)).2.1⟩

/-- C2: for a non-empty value list plotted as a bar, the center is the
arithmetic mean (mean times length recovers the sum), the spread is the
sample standard deviation for more than one element and 0 for a single
element, the SEM choice divides by the square root of the length, and the
standard error never exceeds the standard deviation. -/
theorem c2_bar_statistics (l : List ℚ) (h : l ≠ []) :
    mean l * (l.length : ℚ) = l.sum ∧
    (l.length = 1 → sampleStd l = 0) ∧
    (1 < l.length → sampleStd l = Real.sqrt ((sampleVar l : ℚ) : ℝ)) ∧
    errBar PlotKind.Bar ErrorBarKind.SEM l = sampleStd l / Real.sqrt ((l.length : ℕ) : ℝ) ∧
    errBar PlotKind.Bar ErrorBarKind.SEM l ≤ errBar PlotKind.Bar ErrorBarKind.SD l := by
  have hlen : (l.length : ℚ) ≠ 0 := by
    simpa using fun hl => h (List.length_eq_zero.mp hl)
  refine ⟨div_mul_cancel₀ _ hlen, ?_, ?_, ?_, ?_⟩
  · intro h1
    rw [sampleStd, if_neg (by omega)]
  · intro h2
    rw [sampleStd, if_pos h2]
  · rw [errBar, if_pos ⟨rfl, rfl⟩]
  · have hsd : errBar PlotKind.Bar ErrorBarKind.SD l = sampleStd l := by
      rw [errBar, if_neg (by simp)]
    have hstd : 0 ≤ sampleStd l := by
      rw [sampleStd]
      split
      · exact Real.sqrt_nonneg _
      · exact le_refl 0
    have hone : (1 : ℝ) ≤ Real.sqrt ((l.length : ℕ) : ℝ) := by
      rw [show (1 : ℝ) = Real.sqrt 1 from Real.sqrt_one.symm]
      apply Real.sqrt_le_sqrt
      have : 1 ≤ l.length := List.length_pos.mpr h
      exact_mod_cast this
    rw [errBar, if_pos ⟨rfl, rfl⟩, hsd]
    exact div_le_self hstd hone

/-- C2 witness: the two-element list 1, 2 satisfies the statistics
contract; in particular its standard error is at most its standard
deviation. -/
theorem c2_bar_statistics_witness :
    ([1, 2] : List ℚ) ≠ [] ∧
    errBar PlotKind.Bar ErrorBarKind.SEM [1, 2] ≤ errBar PlotKind.Bar ErrorBarKind.SD [1, 2] :=
  ⟨by decide, (c2_bar_statistics [1, 2] (by decide)).2.2.2.2⟩

/-- C3: with at least one value present, the shared y limit is the manual
override when that is strictly positive and 1.35 times the global maximum
otherwise; the single condition with g1 equal to 1, 2, 3, empty g2 and
override 0 gets limit 4.05. -/
theorem c3_global_scale (m : ℚ) (conds : List CondData) (h : allVals conds ≠ []) :
    (0 < m → yMaxLimit m conds = m) ∧
    (m ≤ 0 → yMaxLimit m conds = listMax (allVals conds) * 1.35) ∧
    yMaxLimit 0 [{ name := "A", g1 := [1, 2, 3], g2 := [], sig := "" }] = 4.05 := by
  refine ⟨?_, ?_, ?_⟩
  · intro hm
    rw [yMaxLimit, if_pos hm]
  · intro hm
    rw [yMaxLimit, if_neg (not_lt.mpr hm), if_neg h]
  · have hv : allVals [{ name := "A", g1 := [1, 2, 3], g2 := [], sig := "" }] = [1, 2, 3] := rfl
    rw [yMaxLimit, if_neg (by norm_num), hv, if_neg (by simp)]
    norm_num [listMax, max_def]

/-- C3 witness: the spec example itself, with a non-empty aggregate value
list and zero override. -/
theorem c3_global_scale_witness :
    allVals [{ name := "A", g1 := [1, 2, 3], g2 := [], sig := "" }] ≠ [] ∧
    yMaxLimit 0 [{ name := "A", g1 := [1, 2, 3], g2 := [], sig := "" }] = 4.05 :=
  ⟨by simp [allVals], (c3_global_scale 0 [{ name := "A", g1 := [1, 2, 3], g2 := [], sig := "" }]
      (by simp [allVals])).2.2⟩

/-- C4 counterexample: a CSV group whose Value cells are all missing
produces a condition with no values at all, yet the program does not show
the informational empty-data state and does run the rendering branch, so
the engine does not fail exactly in the no-values case. -/
theorem c4_empty_data_counterexample :
    allVals [{ name := "X", g1 := [], g2 := [], sig := "" }] = [] ∧
    showsEmptyInfo [{ name := "X", g1 := [], g2 := [], sig := "" }] = false ∧
    rendersChart [{ name := "X", g1 := [], g2 := [], sig := "" }] = true ∧
    csvImport [("X", none)] = [{ name := "X", g1 := [], g2 := [], sig := "" }] := by
  refine ⟨rfl, rfl, rfl, ?_⟩
  simp [csvImport, uniqueFirst, groupVals]

/-- C4 amended: the informational empty-data state is shown exactly when
the condition list is empty; with a non-empty condition list the rendering
branch runs even when no values exist anywhere, in which case the y limit
falls back to the constant 100 (absent a positive override). -/
theorem c4_empty_data_amended (conds : List CondData) (m : ℚ) (hm : m ≤ 0) :
    (showsEmptyInfo conds = true ↔ conds = []) ∧
    (rendersChart conds = true ↔ conds ≠ []) ∧
    (allVals conds = [] → yMaxLimit m conds = 100) := by
  refine ⟨?_, ?_, ?_⟩
  · simp [showsEmptyInfo, List.isEmpty_iff]
  · simp [rendersChart, List.isEmpty_iff]
  · intro hv
    rw [yMaxLimit, if_neg (not_lt.mpr hm), if_pos hv]

/-- C4 amended witness: the all-missing CSV condition renders with the
fallback limit 100. -/
theorem c4_empty_data_witness :
    yMaxLimit 0 [{ name := "X", g1 := [], g2 := [], sig := "" }] = 100 ∧
    rendersChart [{ name := "X", g1 := [], g2 := [], sig := "" }] = true := by
  have h := c4_empty_data_amended [{ name := "X", g1 := [], g2 := [], sig := "" }] 0 (le_refl 0)
  exact ⟨h.2.2 rfl, h.2.1.mpr (by simp)⟩

/-- C5: a condition with a non-empty significance label gets a bracket
whose bar height is its local maximum times 1.15 and whose tick height is
the local maximum times 0.03; with both groups present the bracket spans
exactly the two group positions; the bracket is the same whatever y limit
is applied (no clamping), and relabelling significance labels never
changes the y limit. -/
theorem c5_significance_bracket (w gap yl m : ℚ) (d : CondData) (conds : List CondData)
    (f : String → String) (hsig : d.sig ≠ "") :
    ∃ b, (renderCond w gap yl d).bracket = some b ∧
      b.yBar = localMax d * 1.15 ∧
      b.height = localMax d * 0.03 ∧
      (d.g1 ≠ [] → d.g2 ≠ [] →
        b.lxs = (renderCond w gap yl d).pos1 ∧ b.lxe = (renderCond w gap yl d).pos2) ∧
      (∀ yl2, (renderCond w gap yl2 d).bracket = some b) ∧
      yMaxLimit m (conds.map (withSig f)) = yMaxLimit m conds := by
  refine ⟨{ lxs := if d.g1 ≠ [] ∧ d.g2 ≠ [] then (positions w gap d).1
                   else (positions w gap d).1 - 0.2
            lxe := if d.g1 ≠ [] ∧ d.g2 ≠ [] then (positions w gap d).2
                   else (positions w gap d).1 + 0.2
            yBar := localMax d * 1.15
            height := localMax d * 0.03
            label := d.sig }, ?_, rfl, rfl, ?_, ?_, ?_⟩
  · simp [renderCond, hsig]
  · intro h1 h2
    constructor <;> simp [renderCond, h1, h2]
  · intro yl2
    simp [renderCond, hsig]
  · simp only [yMaxLimit, allVals_map_withSig]

/-- C5 witness: a two-group condition labelled with two stars gets a
bracket whose bar height is 1.15 times its local maximum. -/
theorem c5_significance_bracket_witness :
    ({ name := "A", g1 := [3], g2 := [5], sig := "**" } : CondData).sig ≠ "" ∧
    ∃ b, (renderCond 0.6 0.05 100
        { name := "A", g1 := [3], g2 := [5], sig := "**" }).bracket = some b ∧
      b.yBar = localMax { name := "A", g1 := [3], g2 := [5], sig := "**" } * 1.15 := by
  have h := c5_significance_bracket 0.6 0.05 100 0
      { name := "A", g1 := [3], g2 := [5], sig := "**" } [] id (by decide)
  obtain ⟨b, hb1, hb2, _⟩ := h
  exact ⟨by decide, b, hb1, hb2⟩

/-- C6: within one render every condition is given one and the same y
limit, namely the value computed once from the global data. -/
theorem c6_ylim_invariant (w gap m : ℚ) (conds : List CondData) (r1 r2 : CondRender)
    (h1 : r1 ∈ renderAll w gap m conds) (h2 : r2 ∈ renderAll w gap m conds) :
    r1.yLim = r2.yLim ∧ r1.yLim = yMaxLimit m conds := by
  obtain ⟨d1, _, rfl⟩ := List.mem_map.mp h1
  obtain ⟨d2, _, rfl⟩ := List.mem_map.mp h2
  exact ⟨rfl, rfl⟩

/-- C6 witness: two rendered conditions of one concrete render share their
y limit. -/
theorem c6_ylim_invariant_witness :
    (renderCond 0.6 0.05
        (yMaxLimit 0 [{ name := "A", g1 := [1], g2 := [], sig := "" },
                      { name := "B", g1 := [2], g2 := [], sig := "" }])
        { name := "A", g1 := [1], g2 := [], sig := "" }).yLim =
      (renderCond 0.6 0.05
        (yMaxLimit 0 [{ name := "A", g1 := [1], g2 := [], sig := "" },
                      { name := "B", g1 := [2], g2 := [], sig := "" }])
        { name := "B", g1 := [2], g2 := [], sig := "" }).yLim :=
  (c6_ylim_invariant 0.6 0.05 0
    [{ name := "A", g1 := [1], g2 := [], sig := "" },
     { name := "B", g1 := [2], g2 := [], sig := "" }] _ _
    (List.mem_map_of_mem _ (List.mem_cons_self _ _))
    (List.mem_map_of_mem _ (List.mem_cons_of_mem _ (List.mem_cons_self _ _)))).1

/-- C7: each distinct Group value of an uploaded CSV yields exactly one
condition, holding that group's values in row order in g1 and nothing in
g2; the three rows X 1, X 2, Y 5 give exactly the two conditions of the
spec example. -/
theorem c7_csv_conditions (rows : List (String × Option ℚ)) (g : String) :
    (csvImport rows).filter (fun c => c.name = g) =
      (if g ∈ rows.map Prod.fst then
        [{ name := g, g1 := groupVals rows g, g2 := [], sig := "" }] else []) ∧
    (∀ c ∈ csvImport rows, c.g2 = [] ∧ c.sig = "") ∧
    csvImport [("X", some 1), ("X", some 2), ("Y", some 5)] =
      [{ name := "X", g1 := [1, 2], g2 := [], sig := "" },
       { name := "Y", g1 := [5], g2 := [], sig := "" }] := by
  refine ⟨?_, ?_, ?_⟩
  · rw [csvImport, List.filter_map]
    have hcomp : ((fun c : CondData => decide (c.name = g)) ∘
        fun h => ({ name := h, g1 := groupVals rows h, g2 := [], sig := "" } : CondData)) =
        fun h => decide (h = g) := by
      funext h
      rfl
    rw [hcomp, uniqueFirst_filter_eq]
    by_cases hg : g ∈ rows.map Prod.fst
    · simp [hg]
    · simp [hg]
  · intro c hc
    obtain ⟨h0, _, rfl⟩ := List.mem_map.mp hc
    exact ⟨rfl, rfl⟩
  · simp [csvImport, uniqueFirst, groupVals]

/-- C8: a manual data block is tokenised by replacing commas with
newlines, splitting on newlines and dropping blank tokens; when every
token converts the block parses to the converted values with no error,
when some token fails to convert that block alone becomes empty with an
error reported, the sibling block of the same condition still parses from
its own text, and the parsed condition at any other list index is
unchanged. -/
theorem c8_manual_parsing (pf : String → Option ℚ) (mi mi2 : ManualInput)
    (ins : List ManualInput) (i j : ℕ)
    (hfail : (tokensOf mi.input1).mapM pf = none) (hne : mi.input1 ≠ "") (hij : j ≠ i) :
    parseBlock pf mi.input1 = ([], true) ∧
    (parseCond pf mi).g1 = [] ∧
    (parseCond pf mi).g2 = (parseBlock pf mi.input2).1 ∧
    (∀ s vs, s ≠ "" → (tokensOf s).mapM pf = some vs → parseBlock pf s = (vs, false)) ∧
    ((ins.set i mi2).map (parseCond pf))[j]? = (ins.map (parseCond pf))[j]? := by
  have hblock : parseBlock pf mi.input1 = ([], true) := by
    rw [parseBlock, if_neg hne, hfail]
  refine ⟨hblock, ?_, rfl, ?_, ?_⟩
  · show (parseBlock pf mi.input1).1 = []
    rw [hblock]
  · intro s vs hs hsome
    rw [parseBlock, if_neg hs, hsome]
  · rw [List.map_set, List.getElem?_set_ne hij.symm]

/-- C8 witness: a block consisting of a single unconvertible token parses
to the empty list with an error flag. -/
theorem c8_manual_parsing_witness :
    parseBlock (fun _ => (none : Option ℚ)) "x" = ([], true) :=
  (c8_manual_parsing (fun _ => none)
    { name := "D", input1 := "x", input2 := "", sig := "" }
    { name := "D", input1 := "", input2 := "", sig := "" }
    [] 0 1 (by decide) (by decide) (by decide)).1

theorem sampleVar_spec_example : sampleVar [100, 105, 98, 102] = 107 / 12 := by
  norm_num [sampleVar, mean]

theorem sampleStd_spec_example_bounds :
    2.98 < sampleStd [100, 105, 98, 102] ∧ sampleStd [100, 105, 98, 102] < 2.99 := by
  rw [sampleStd, if_pos (by decide), sampleVar_spec_example]
  constructor
  · rw [Real.lt_sqrt (by norm_num)]
    push_cast
    norm_num
  · rw [Real.sqrt_lt' (by norm_num)]
    push_cast
    norm_num

theorem errBar_spec_example :
    errBar PlotKind.Bar ErrorBarKind.SEM [100, 105, 98, 102] =
      sampleStd [100, 105, 98, 102] / 2 := by
  rw [errBar, if_pos ⟨rfl, rfl⟩]
  have h4 : ((([100, 105, 98, 102] : List ℚ).length : ℕ) : ℝ) = 4 := by norm_num
  rw [h4, show (4 : ℝ) = 2 ^ 2 by norm_num, Real.sqrt_sq (by norm_num)]

/-- C9 counterexample: for the input 100, 105, 98, 102 the sample standard
deviation is below 3.05 and the SEM below 1.525, so neither is within one
half of a final decimal place (0.05) of the claimed 3.1 and 1.55. -/
theorem c9_numeric_counterexample :
    ¬(|sampleStd [100, 105, 98, 102] - 3.1| < 0.05 ∧
      |errBar PlotKind.Bar ErrorBarKind.SEM [100, 105, 98, 102] - 1.55| < 0.05) := by
  rintro ⟨h1, _⟩
  have hb := sampleStd_spec_example_bounds.2
  rw [abs_lt] at h1
  have := h1.1
  norm_num at this hb
  linarith

/-- C9 amended: for the input 100, 105, 98, 102 the mean is 101.25, the
sample standard deviation is approximately 2.99 and the standard error
approximately 1.49 (each within 0.05). -/
theorem c9_numeric_amended :
    mean [100, 105, 98, 102] = 101.25 ∧
    |sampleStd [100, 105, 98, 102] - 2.99| < 0.05 ∧
    |errBar PlotKind.Bar ErrorBarKind.SEM [100, 105, 98, 102] - 1.49| < 0.05 := by
  have hb := sampleStd_spec_example_bounds
  refine ⟨by norm_num [mean], ?_, ?_⟩
  · rw [abs_lt]
    constructor <;> [linarith [hb.1]; linarith [hb.2]]
  · rw [errBar_spec_example, abs_lt]
    constructor <;> [linarith [hb.1]; linarith [hb.2]]

/-- C10: a CSV group whose Value cells are all missing yields a condition
with empty groups; the resulting condition list renders a chart (no
empty-data state) and, with a zero override, the y limit is the constant
100. -/
theorem c10_nan_csv_fallback :
    csvImport [("X", none), ("X", none)] = [{ name := "X", g1 := [], g2 := [], sig := "" }] ∧
    yMaxLimit 0 [{ name := "X", g1 := [], g2 := [], sig := "" }] = 100 ∧
    rendersChart [{ name := "X", g1 := [], g2 := [], sig := "" }] = true ∧
    showsEmptyInfo [{ name := "X", g1 := [], g2 := [], sig := "" }] = false := by
  refine ⟨?_, ?_, rfl, rfl⟩
  · simp [csvImport, uniqueFirst, groupVals]
  · have hv : allVals [{ name := "X", g1 := [], g2 := [], sig := "" }] = [] := rfl
    rw [yMaxLimit, if_neg (by norm_num), if_pos hv]
